import Mathlib

/-!
Verification of the note_taker message-orchestration pipeline and its
request-governance layer (idempotency cache, sliding-window rate limiter),
shallowly embedded from `src/api/app`.  Python strings are modelled as
`List Char`, timestamps (`time.time()` floats) as rationals, database and
network effects as explicit effect traces and outcome parameters.
-/

set_option maxHeartbeats 1000000

namespace NoteTaker

/-- Python strings are modelled as lists of characters. -/
abbrev Str := List Char

/-- Python `str.lower()` (per-character lowering). -/
def pyLower (s : Str) : Str := s.map Char.toLower

/-- Whitespace characters recognised by Python `str.split()` with no
separator: space, tab, newline, carriage return, vertical tab, form feed. -/
def pyIsSpace (c : Char) : Bool :=
  c = ' ' || c = Char.ofNat 9 || c = Char.ofNat 10 || c = Char.ofNat 13 ||
  c = Char.ofNat 11 || c = Char.ofNat 12

/-- Helper for `pyWords`: accumulates the current word (reversed) while
scanning. -/
def pyWordsAux : Str → Str → List Str
  | [], acc => if acc = [] then [] else [acc.reverse]
  | c :: rest, acc =>
    if pyIsSpace c then
      if acc = [] then pyWordsAux rest [] else acc.reverse :: pyWordsAux rest []
    else
      pyWordsAux rest (c :: acc)

/-- Python `text.split()` (split on whitespace runs, dropping empty words). -/
def pyWords (s : Str) : List Str := pyWordsAux s []

/-- Python substring containment `needle in hay`. -/
def isSubstr (needle hay : Str) : Bool :=
  (List.range (hay.length + 1)).any (fun i => needle.isPrefixOf (hay.drop i))

/-- Python `str.strip()` with no argument: drop leading and trailing
whitespace. -/
def pyStrip (s : Str) : Str :=
  ((s.dropWhile pyIsSpace).reverse.dropWhile pyIsSpace).reverse

/-- Brain-dump indicator keyword lists loaded from the prompt configuration
(`fallback.brain_dump_indicators` in the orchestrator YAML, which is not part
of the sources; the lists are kept abstract). -/
structure BrainDumpConfig where
  action_keywords : List Str
  organizational_keywords : List Str

/-- `OrchestratorService.brain_dump_threshold` (set in `__init__`). -/
def brain_dump_threshold : Nat := 100

/-- The six heuristic indicators computed by
`OrchestratorService._is_brain_dump`, in source order. -/
def brainDumpIndicators (cfg : BrainDumpConfig) (text : Str) : List Bool :=
  [ decide (text.length > brain_dump_threshold),
    decide (text.count (Char.ofNat 10) > 2),
    decide (text.count '.' > 3),
    decide (text.count ',' > 4),
    cfg.action_keywords.any (fun k => isSubstr k (pyLower text)),
    decide (((pyWords text).filter (fun w => pyLower w ∈ cfg.organizational_keywords)).length > 2) ]

/-- `OrchestratorService._is_brain_dump`: true when at least two of the six
indicators fire (`sum(indicators) >= 2`). -/
def is_brain_dump (cfg : BrainDumpConfig) (text : Str) : Bool :=
  decide ((brainDumpIndicators cfg text).countP id ≥ 2)

/-- Number of firing signals, phrased the way the specification enumerates
them (length, newlines, periods, commas, action keyword presence,
organizational-keyword token count). -/
def signalCount (cfg : BrainDumpConfig) (text : Str) : Nat :=
  (if text.length > 100 then 1 else 0) +
  (if text.count (Char.ofNat 10) > 2 then 1 else 0) +
  (if text.count '.' > 3 then 1 else 0) +
  (if text.count ',' > 4 then 1 else 0) +
  (if ∃ k ∈ cfg.action_keywords, isSubstr k (pyLower text) = true then 1 else 0) +
  (if ((pyWords text).filter (fun w => pyLower w ∈ cfg.organizational_keywords)).length > 2 then 1 else 0)

/-- JSON values as produced by `json.loads`.  Numbers are modelled as
integers (no claim depends on fractional numeric payloads). -/
inductive Json where
  | null
  | bool (b : Bool)
  | num (n : Int)
  | str (s : Str)
  | arr (elems : List Json)
  | obj (fields : List (Str × Json))

/-- Python `d.get(k)` on a dict: `some v` when the key is present, `none`
otherwise.  Callers guard with `isObj`; calling `.get` on a non-dict raises
in Python, which the embedding models explicitly at each call site. -/
def Json.get? (j : Json) (k : Str) : Option Json :=
  match j with
  | .obj fields => fields.lookup k
  | _ => none

/-- Whether a JSON value is a Python dict (`isinstance(x, dict)`). -/
def Json.isObj : Json → Bool
  | .obj _ => true
  | _ => false

/-- Whether an optional JSON value (a `d.get(k)` result) is the string `s`
(Python `d.get(k) == s`). -/
def optIsStr (v : Option Json) (s : Str) : Bool :=
  match v with
  | some (.str t) => t == s
  | _ => false

/-- Python truthiness of a JSON-decoded value. -/
def jsonTruthy : Json → Bool
  | .null => false
  | .bool b => b
  | .num n => decide (n ≠ 0)
  | .str s => !s.isEmpty
  | .arr xs => !xs.isEmpty
  | .obj fs => !fs.isEmpty

/-- Join a list of strings with a separator (Python `sep.join`). -/
def joinSep (sep : Str) : List Str → Str
  | [] => []
  | [x] => x
  | x :: rest => x ++ sep ++ joinSep sep rest

mutual

/-- Python `repr` of a JSON-decoded value (used by `str` on containers).
Quotes, brackets and braces are built from character codes. -/
def pyRepr : Json → Str
  | .null => "None".toList
  | .bool true => "True".toList
  | .bool false => "False".toList
  | .num n => (toString n).toList
  | .str s => Char.ofNat 39 :: s ++ [Char.ofNat 39]
  | .arr xs => Char.ofNat 91 :: pyReprList xs ++ [Char.ofNat 93]
  | .obj fs => Char.ofNat 123 :: pyReprFields fs ++ [Char.ofNat 125]

/-- Comma-joined `repr`s of list elements. -/
def pyReprList : List Json → Str
  | [] => []
  | [x] => pyRepr x
  | x :: y :: rest => pyRepr x ++ ", ".toList ++ pyReprList (y :: rest)

/-- Comma-joined `repr`s of dict entries. -/
def pyReprFields : List (Str × Json) → Str
  | [] => []
  | [(k, v)] => Char.ofNat 39 :: k ++ [Char.ofNat 39, ':', ' '] ++ pyRepr v
  | (k, v) :: f :: rest =>
      Char.ofNat 39 :: k ++ [Char.ofNat 39, ':', ' '] ++ pyRepr v ++ ", ".toList ++
        pyReprFields (f :: rest)

end

/-- Python `str` of a JSON-decoded value. -/
def pyStr : Json → Str
  | .str s => s
  | j => pyRepr j

/-- Python `v or default` where `v` is `d.get(k)` (an optional JSON value)
and the default is a JSON value: the default is used when the key is absent
or the value is falsy. -/
def pyOrJ (v : Option Json) (dflt : Json) : Json :=
  match v with
  | some j => if jsonTruthy j then j else dflt
  | none => dflt

/-- A field read `d.get(k)` destined for a nullable ORM column: JSON null
(Python `None`) and a missing key both yield `none`. -/
def jsonOptField (j : Json) (k : Str) : Option Json :=
  match j.get? k with
  | some .null => none
  | some v => some v
  | none => none

/-- Note fields persisted by the orchestrator (`models/orm.py` `Note`,
restricted to the columns the orchestrator writes). -/
structure NoteDraft where
  user_id : Nat
  conversation_id : Nat
  title : Str
  body : Str
  tags : Option Json

/-- Task fields persisted by the orchestrator (`models/orm.py` `Task`,
restricted to the columns the orchestrator writes; `status` defaults to
"todo" per the ORM column default). -/
structure TaskDraft where
  user_id : Nat
  conversation_id : Nat
  title : Str
  description : Option Json
  status : Str
  priority : Option Json

/-- A row written to the database by the pipeline. -/
inductive Persisted where
  | note (n : NoteDraft)
  | task (t : TaskDraft)
  | message (conversation_id : Nat) (role : Str) (content : Str)

/-- Observable side effects of the orchestrator, in program order.
Modelled from the spec: persisted rows are durable — the spec states each
entity is committed within the request's transaction scope (the session
plumbing `app/db.py` is not among the sources). -/
inductive Effect where
  | persist (p : Persisted)
  | llmCall
  | telemetryLLMCall (success : Bool)
  | telemetryUserActivity
  | telemetryOrchestratorResult (success : Bool)

/-- The database rows written by a trace of effects. -/
def persistedOf (effs : List Effect) : List Persisted :=
  effs.filterMap fun e =>
    match e with
    | .persist p => some p
    | _ => none

/-- Outcome of one `provider.generate` invocation: `failure` models any
raised exception (unreachable host, timeout, non-2xx), `success` carries the
response text. -/
inductive LLMOutcome where
  | failure
  | success (content : Str)
  deriving DecidableEq

/-- Fallback keyword configuration (`fallback.task_keywords` of the
orchestrator prompt YAML, not among the sources; kept abstract). -/
structure FallbackConfig where
  task_keywords : List Str

/-- Result value returned by the orchestrator to the route layer. -/
inductive OrchResult where
  | note (n : NoteDraft)
  | task (t : TaskDraft)
  | brain_dump (summary : Str) (notes : List NoteDraft) (tasks : List TaskDraft)
      (total_items : Nat)

/-- The explicit task indicators hard-coded in
`OrchestratorService._validate_classification`. -/
def explicit_task_indicators : List Str :=
  ["task:", "todo:", "action:", "need to", "must"].map String.toList

/-- `OrchestratorService._validate_classification`: convert a note
classification to a task when the raw text carries an explicit task marker.
Returns `none` when the Python code would raise (`note_data.get` on a
non-dict), which the caller's `except` turns into the heuristic fallback. -/
def validate_classification (text : Str) (llm_result : Json) : Option Json :=
  let lower_text := pyLower text
  let has_explicit := explicit_task_indicators.any fun k => isSubstr k lower_text
  if optIsStr (llm_result.get? "type".toList) "note".toList && has_explicit then
    let note_data := (llm_result.get? "note".toList).getD (.obj [])
    match note_data with
    | .obj _ =>
      some (.obj
        [("type".toList, .str "task".toList),
         ("task".toList, .obj
           [("title".toList, (note_data.get? "title".toList).getD (.str (text.take 120))),
            ("description".toList, (note_data.get? "body".toList).getD (.str text)),
            ("due_at".toList, .null),
            ("status".toList, .str "todo".toList),
            ("priority".toList, .num 3)])])
    | _ => none
  else
    some llm_result

/-- Python `text.split(":", 1)[-1]`: everything after the first colon, or
the whole text when there is no colon. -/
def pySplitColonLast (s : Str) : Str :=
  if ':' ∈ s then (s.dropWhile (fun c => c ≠ ':')).drop 1 else s

/-- First line of the text capped at 80 characters, defaulting to "Note"
when empty (`text.split("\n", 1)[0][:80] or "Note"`). -/
def noteTitleDefault (text : Str) : Str :=
  let fl := (text.takeWhile (fun c => c ≠ Char.ofNat 10)).take 80
  if fl = [] then "Note".toList else fl

/-- The `except` branch of `OrchestratorService._process_simple_message`:
pure keyword heuristic choosing task vs note, persisting the entity and an
assistant message. -/
def simple_fallback (cfg : FallbackConfig) (uid cid : Nat) (text : Str) :
    OrchResult × List Effect :=
  let lower := pyLower text
  if cfg.task_keywords.any (fun k => isSubstr k lower) then
    let stripped := pyStrip (pySplitColonLast text)
    let title := if stripped = [] then text.take 120 else stripped
    let task : TaskDraft := ⟨uid, cid, title, none, "todo".toList, none⟩
    (.task task,
     [.persist (.task task),
      .persist (.message cid "assistant".toList ("Created task: ".toList ++ title))])
  else
    let title := noteTitleDefault text
    let note : NoteDraft := ⟨uid, cid, title, text, none⟩
    (.note note,
     [.persist (.note note),
      .persist (.message cid "assistant".toList ("Created note: ".toList ++ title))])

/-- The task-branch guard of the simple-message success path:
`data.get("type") == "task" and isinstance(data.get("task"), dict)` yields
the task payload. -/
def taskPayloadOf (data : Json) : Option Json :=
  if optIsStr (data.get? "type".toList) "task".toList then
    match data.get? "task".toList with
    | some (.obj fs) => some (.obj fs)
    | _ => none
  else none

/-- The persist-and-reply tail of the simple-message success branch, given
the validated classification object `data` (a dict).  `none` models the
raise on a non-dict "note" payload, routed to the heuristic fallback by the
caller. -/
def simple_success_branch (uid cid : Nat) (text : Str) (data : Json) :
    Option (OrchResult × List Effect) :=
  match taskPayloadOf data with
  | some payload =>
    let title := pyStr (pyOrJ (payload.get? "title".toList) (.str (text.take 120)))
    let task : TaskDraft :=
      ⟨uid, cid, title, jsonOptField payload "description".toList,
       pyStr (pyOrJ (payload.get? "status".toList) (.str "todo".toList)),
       jsonOptField payload "priority".toList⟩
    some (.task task,
      [.persist (.task task),
       .persist (.message cid "assistant".toList ("Created task: ".toList ++ title))])
  | none =>
    let payload := (data.get? "note".toList).getD (.obj [])
    match payload with
    | .obj _ =>
      let title := pyStr (pyOrJ (payload.get? "title".toList) (.str (noteTitleDefault text)))
      let note : NoteDraft :=
        ⟨uid, cid, title, pyStr (pyOrJ (payload.get? "body".toList) (.str text)),
         jsonOptField payload "tags".toList⟩
      some (.note note,
        [.persist (.note note),
         .persist (.message cid "assistant".toList ("Created note: ".toList ++ title))])
    | _ => none

/-- `OrchestratorService._process_simple_message`.  `outcome` is the result
of the `provider.generate` call; `parse` models `json.loads` (`none` for a
raise).  Every raising step inside the `try` block routes to
`simple_fallback`; the conversation context only shapes the LLM input and is
absorbed by `outcome`. -/
def process_simple_message (cfg : FallbackConfig) (uid cid : Nat) (text : Str)
    (outcome : LLMOutcome) (parse : Str → Option Json) : OrchResult × List Effect :=
  match outcome with
  | .failure =>
    let fb := simple_fallback cfg uid cid text
    (fb.1, .llmCall :: fb.2)
  | .success content =>
    match parse content with
    | none =>
      let fb := simple_fallback cfg uid cid text
      (fb.1, .llmCall :: .telemetryLLMCall true :: fb.2)
    | some data =>
      if data.isObj then
        match validate_classification text data with
        | none =>
          let fb := simple_fallback cfg uid cid text
          (fb.1, .llmCall :: .telemetryLLMCall true :: fb.2)
        | some data' =>
          match simple_success_branch uid cid text data' with
          | some (r, effs) => (r, .llmCall :: .telemetryLLMCall true :: effs)
          | none =>
            let fb := simple_fallback cfg uid cid text
            (fb.1, .llmCall :: .telemetryLLMCall true :: fb.2)
      else
        let fb := simple_fallback cfg uid cid text
        (fb.1, .llmCall :: .telemetryLLMCall true :: fb.2)

/-- Markdown fence stripping and truncated-JSON repair performed on the raw
LLM response in `_process_brain_dump`: strip, drop a leading "```json" fence
marker, drop a leading "```", drop a trailing "```", strip again, then when
the text does not end in a closing brace append closing punctuation
depending on its last character. -/
def repairJson (raw : Str) : Str :=
  let c0 := pyStrip raw
  let c1 := if ("```json".toList).isPrefixOf c0 then c0.drop 7 else c0
  let c2 := if ("```".toList).isPrefixOf c1 then c1.drop 3 else c1
  let c3 := if ("```".toList).isSuffixOf c2 then c2.take (c2.length - 3) else c2
  let c := pyStrip c3
  if c.getLast? = some (Char.ofNat 125) then c
  else if c.getLast? = some (Char.ofNat 93) then c ++ [Char.ofNat 125]
  else if c.getLast? = some (Char.ofNat 34) then
    c ++ [Char.ofNat 125, Char.ofNat 93, Char.ofNat 125]
  else c ++ [Char.ofNat 93, Char.ofNat 125]

/-- The shape test of `_process_brain_dump`: the parsed payload must be a
dict whose "type" is "brain_dump" and whose "items" is a list (a non-dict
payload raises at `data.get`, landing in the same fallback). -/
def brainDumpShapeOk (data : Json) : Bool :=
  data.isObj && optIsStr (data.get? "type".toList) "brain_dump".toList &&
    (match data.get? "items".toList with
     | some (.arr _) => true
     | _ => false)

/-- The "items" list of a well-shaped brain-dump payload. -/
def bdItems (data : Json) : List Json :=
  match data.get? "items".toList with
  | some (.arr xs) => xs
  | _ => []

/-- One iteration of the brain-dump item loop: non-dict items are skipped
(`continue`), an item whose "type" is "task" yields a task, anything else
defaults to a note. -/
def bd_item_step (uid cid : Nat) (item : Json) : Option Persisted :=
  match item with
  | .obj _ =>
    let title := pyStr ((item.get? "title".toList).getD (.str "Untitled".toList))
    if optIsStr (item.get? "type".toList) "task".toList then
      some (.task ⟨uid, cid, title, jsonOptField item "description".toList, "todo".toList,
                   jsonOptField item "priority".toList⟩)
    else
      some (.note ⟨uid, cid, title,
        pyStr (((item.get? "body".toList).orElse fun _ => item.get? "title".toList).getD (.str [])),
        none⟩)
  | _ => none

/-- `OrchestratorService._process_brain_dump`.  `bdOutcome` models the
brain-dump `provider.generate` call; the fallback re-invokes the simple path
on the same text and context, whose own LLM call is modelled by
`simpleOutcome`. -/
def process_brain_dump (cfg : FallbackConfig) (uid cid : Nat) (text : Str)
    (bdOutcome simpleOutcome : LLMOutcome) (parse : Str → Option Json) :
    OrchResult × List Effect :=
  match bdOutcome with
  | .failure =>
    let fb := process_simple_message cfg uid cid text simpleOutcome parse
    (fb.1, .llmCall :: fb.2)
  | .success content =>
    match parse (repairJson content) with
    | none =>
      let fb := process_simple_message cfg uid cid text simpleOutcome parse
      (fb.1, .llmCall :: .telemetryLLMCall true :: fb.2)
    | some data =>
      if brainDumpShapeOk data then
        let persisted := (bdItems data).filterMap (bd_item_step uid cid)
        let notes := persisted.filterMap fun p =>
          match p with
          | .note n => some n
          | _ => none
        let tasks := persisted.filterMap fun p =>
          match p with
          | .task t => some t
          | _ => none
        let total := notes.length + tasks.length
        let summary :=
          match data.get? "summary".toList with
          | some j => pyStr j
          | none =>
            "Organized ".toList ++ (toString total).toList ++
              " items from your brain dump".toList
        let itemsSummary : List Str :=
          (if notes.length ≠ 0 then
            [(toString notes.length).toList ++ " note".toList ++
              (if notes.length ≠ 1 then ['s'] else [])]
           else []) ++
          (if tasks.length ≠ 0 then
            [(toString tasks.length).toList ++ " task".toList ++
              (if tasks.length ≠ 1 then ['s'] else [])]
           else [])
        let assistant_content :=
          summary ++ ". Created: ".toList ++ joinSep (", ".toList) itemsSummary ++ ['.']
        (.brain_dump summary notes tasks total,
         .llmCall :: .telemetryLLMCall true ::
           (persisted.map .persist) ++
             [.persist (.message cid "assistant".toList assistant_content)])
      else
        let fb := process_simple_message cfg uid cid text simpleOutcome parse
        (fb.1, .llmCall :: .telemetryLLMCall true :: fb.2)

/-- `OrchestratorService.handle_message`.  The inbound text is stored as a
user message, user activity is logged, the brain-dump heuristic selects the
processing path, and the orchestration result is logged.  `procError`
injects an environment exception raised during context fetch,
classification or processing (telemetry sink or database failure): in that
case the failure is logged and the exception re-raised, and the already
persisted user message stays in the trace. -/
def handle_message (bd_cfg : BrainDumpConfig) (cfg : FallbackConfig) (uid cid : Nat)
    (text : Str) (bdOutcome simpleOutcome : LLMOutcome) (parse : Str → Option Json)
    (procError : Option Str) : Except Str OrchResult × List Effect :=
  let userEff := Effect.persist (.message cid "user".toList text)
  match procError with
  | some e =>
    (.error e, [userEff, .telemetryUserActivity, .telemetryOrchestratorResult false])
  | none =>
    let pr :=
      if is_brain_dump bd_cfg text then
        process_brain_dump cfg uid cid text bdOutcome simpleOutcome parse
      else
        process_simple_message cfg uid cid text simpleOutcome parse
    (.ok pr.1,
     userEff :: .telemetryUserActivity :: pr.2 ++ [.telemetryOrchestratorResult true])

@[simp]
theorem persistedOf_nil : persistedOf [] = [] := rfl

@[simp]
theorem persistedOf_persist (p : Persisted) (effs : List Effect) :
    persistedOf (.persist p :: effs) = p :: persistedOf effs := rfl

@[simp]
theorem persistedOf_llmCall (effs : List Effect) :
    persistedOf (.llmCall :: effs) = persistedOf effs := rfl

@[simp]
theorem persistedOf_telemetryLLMCall (b : Bool) (effs : List Effect) :
    persistedOf (.telemetryLLMCall b :: effs) = persistedOf effs := rfl

@[simp]
theorem persistedOf_telemetryUserActivity (effs : List Effect) :
    persistedOf (.telemetryUserActivity :: effs) = persistedOf effs := rfl

@[simp]
theorem persistedOf_telemetryOrchestratorResult (b : Bool) (effs : List Effect) :
    persistedOf (.telemetryOrchestratorResult b :: effs) = persistedOf effs := rfl

@[simp]
theorem persistedOf_append (a b : List Effect) :
    persistedOf (a ++ b) = persistedOf a ++ persistedOf b := by
  simp [persistedOf, List.filterMap_append]

/-- Behaviour of the keyword-heuristic fallback branch: a configured task
keyword occurring in the lowercased text yields a task, otherwise a note
with the default title and the raw text as body; both persist the entity
followed by an assistant message. -/
theorem simple_fallback_spec (cfg : FallbackConfig) (uid cid : Nat) (text : Str) :
    ((∃ k ∈ cfg.task_keywords, isSubstr k (pyLower text) = true) →
      ∃ t : TaskDraft, (simple_fallback cfg uid cid text).1 = .task t ∧
        (simple_fallback cfg uid cid text).2 =
          [.persist (.task t),
           .persist (.message cid "assistant".toList ("Created task: ".toList ++ t.title))]) ∧
    ((¬ ∃ k ∈ cfg.task_keywords, isSubstr k (pyLower text) = true) →
      ∃ n : NoteDraft, (simple_fallback cfg uid cid text).1 = .note n ∧
        n.title = noteTitleDefault text ∧ n.body = text ∧
        (simple_fallback cfg uid cid text).2 =
          [.persist (.note n),
           .persist (.message cid "assistant".toList ("Created note: ".toList ++ n.title))]) := by
  constructor
  · intro hk
    have hk' : cfg.task_keywords.any (fun k => isSubstr k (pyLower text)) = true := by
      rw [List.any_eq_true]; exact hk
    refine ⟨⟨uid, cid,
      (if pyStrip (pySplitColonLast text) = [] then text.take 120
       else pyStrip (pySplitColonLast text)), none, "todo".toList, none⟩, ?_, ?_⟩ <;>
      simp [simple_fallback, hk']
  · intro hk
    have hk' : cfg.task_keywords.any (fun k => isSubstr k (pyLower text)) = false := by
      rw [Bool.eq_false_iff]
      intro hc
      exact hk (List.any_eq_true.mp hc)
    refine ⟨⟨uid, cid, noteTitleDefault text, text, none⟩, ?_, rfl, rfl, ?_⟩ <;>
      simp [simple_fallback, hk']

/-- The fallback branch persists exactly one entity (a note or a task,
matching the returned result) followed by one assistant message. -/
theorem simple_fallback_shape (cfg : FallbackConfig) (uid cid : Nat) (text : Str) :
    ∃ p content, (simple_fallback cfg uid cid text).2 =
        [.persist p, .persist (.message cid "assistant".toList content)] ∧
      ((∃ n, p = .note n ∧ (simple_fallback cfg uid cid text).1 = OrchResult.note n) ∨
       (∃ t, p = .task t ∧ (simple_fallback cfg uid cid text).1 = OrchResult.task t)) := by
  by_cases hk : ∃ k ∈ cfg.task_keywords, isSubstr k (pyLower text) = true
  · obtain ⟨t, h1, h2⟩ := (simple_fallback_spec cfg uid cid text).1 hk
    exact ⟨.task t, _, h2, Or.inr ⟨t, rfl, h1⟩⟩
  · obtain ⟨n, h1, _, _, h2⟩ := (simple_fallback_spec cfg uid cid text).2 hk
    exact ⟨.note n, _, h2, Or.inl ⟨n, rfl, h1⟩⟩

/-- The success branch of the simple path, when it does not raise, persists
exactly one entity (matching the returned result) followed by one assistant
message. -/
theorem simple_success_branch_shape (uid cid : Nat) (text : Str) (data : Json)
    (r : OrchResult) (effs : List Effect)
    (h : simple_success_branch uid cid text data = some (r, effs)) :
    ∃ p content, effs = [.persist p, .persist (.message cid "assistant".toList content)] ∧
      ((∃ n, p = .note n ∧ r = OrchResult.note n) ∨
       (∃ t, p = .task t ∧ r = OrchResult.task t)) := by
  unfold simple_success_branch at h
  split at h
  · simp only [Option.some.injEq, Prod.mk.injEq] at h
    obtain ⟨h1, h2⟩ := h
    subst h1; subst h2
    exact ⟨_, _, rfl, Or.inr ⟨_, rfl, rfl⟩⟩
  · simp only [] at h
    split at h
    · simp only [Option.some.injEq, Prod.mk.injEq] at h
      obtain ⟨h1, h2⟩ := h
      subst h1; subst h2
      exact ⟨_, _, rfl, Or.inl ⟨_, rfl, rfl⟩⟩
    · cases h

/-- Any run of the simple-message path persists exactly one entity (a note
or a task, matching the returned result) followed by one assistant
message. -/
theorem process_simple_message_shape (cfg : FallbackConfig) (uid cid : Nat) (text : Str)
    (outcome : LLMOutcome) (parse : Str → Option Json) :
    ∃ p content,
      persistedOf (process_simple_message cfg uid cid text outcome parse).2 =
        [p, .message cid "assistant".toList content] ∧
      ((∃ n, p = .note n ∧
          (process_simple_message cfg uid cid text outcome parse).1 = OrchResult.note n) ∨
       (∃ t, p = .task t ∧
          (process_simple_message cfg uid cid text outcome parse).1 = OrchResult.task t)) := by
  obtain ⟨p, content, hfb2, hfb1⟩ := simple_fallback_shape cfg uid cid text
  cases outcome with
  | failure =>
    exact ⟨p, content, by simp [process_simple_message, hfb2], by
      simpa [process_simple_message] using hfb1⟩
  | success c =>
    cases hp : parse c with
    | none =>
      exact ⟨p, content, by simp [process_simple_message, hp, hfb2], by
        simpa [process_simple_message, hp] using hfb1⟩
    | some data =>
      by_cases hobj : data.isObj
      · cases hv : validate_classification text data with
        | none =>
          exact ⟨p, content, by simp [process_simple_message, hp, hobj, hv, hfb2], by
            simpa [process_simple_message, hp, hobj, hv] using hfb1⟩
        | some data2 =>
          cases hs : simple_success_branch uid cid text data2 with
          | none =>
            exact ⟨p, content, by simp [process_simple_message, hp, hobj, hv, hs, hfb2], by
              simpa [process_simple_message, hp, hobj, hv, hs] using hfb1⟩
          | some pr =>
            obtain ⟨q, content2, he, hr⟩ :=
              simple_success_branch_shape uid cid text data2 pr.1 pr.2 (by rw [hs])
            exact ⟨q, content2, by simp [process_simple_message, hp, hobj, hv, hs, he], by
              simpa [process_simple_message, hp, hobj, hv, hs] using hr⟩
      · exact ⟨p, content, by simp [process_simple_message, hp, hobj, hfb2], by
          simpa [process_simple_message, hp, hobj] using hfb1⟩

end NoteTaker

namespace NoteTaker

/-- C4: when the LLM call of the simple-message path raises (unreachable,
timeout, or any call/parse failure), no error is returned: the pure keyword
heuristic persists a Task when the lowercased text contains a configured
task keyword, otherwise a Note whose title is the first line capped at 80
characters (or "Note") and whose body is the raw text, and in both cases an
assistant Message is also persisted. -/
theorem simple_message_llm_failure_uses_keyword_heuristic (cfg : FallbackConfig)
    (uid cid : Nat) (text : Str) (outcome : LLMOutcome) (parse : Str → Option Json)
    (hfail : outcome = .failure ∨ ∃ c, outcome = .success c ∧ parse c = none) :
    ((∃ k ∈ cfg.task_keywords, isSubstr k (pyLower text) = true) →
      ∃ t : TaskDraft,
        (process_simple_message cfg uid cid text outcome parse).1 = .task t ∧
        persistedOf (process_simple_message cfg uid cid text outcome parse).2 =
          [.task t, .message cid "assistant".toList ("Created task: ".toList ++ t.title)]) ∧
    ((¬ ∃ k ∈ cfg.task_keywords, isSubstr k (pyLower text) = true) →
      ∃ n : NoteDraft,
        (process_simple_message cfg uid cid text outcome parse).1 = .note n ∧
        n.title = noteTitleDefault text ∧ n.body = text ∧
        persistedOf (process_simple_message cfg uid cid text outcome parse).2 =
          [.note n, .message cid "assistant".toList ("Created note: ".toList ++ n.title)]) := by
  have hred : (process_simple_message cfg uid cid text outcome parse).1 =
        (simple_fallback cfg uid cid text).1 ∧
      persistedOf (process_simple_message cfg uid cid text outcome parse).2 =
        persistedOf (simple_fallback cfg uid cid text).2 := by
    rcases hfail with h | ⟨c, hc, hp⟩
    · subst h; simp [process_simple_message]
    · subst hc; simp [process_simple_message, hp]
  constructor
  · intro hk
    obtain ⟨t, h1, h2⟩ := (simple_fallback_spec cfg uid cid text).1 hk
    exact ⟨t, by rw [hred.1, h1], by rw [hred.2, h2]; simp⟩
  · intro hk
    obtain ⟨n, h1, ht, hb, h2⟩ := (simple_fallback_spec cfg uid cid text).2 hk
    exact ⟨n, by rw [hred.1, h1], ht, hb, by rw [hred.2, h2]; simp⟩

/-- C4 witness: at a failing LLM call with empty keyword configuration, the
text "buy milk" becomes a note titled "buy milk" with the raw text as body,
plus an assistant message. -/
theorem simple_message_llm_failure_witness :
    ∃ n : NoteDraft,
      (process_simple_message ⟨[]⟩ 1 2 "buy milk".toList .failure (fun _ => none)).1 = .note n ∧
      n.title = noteTitleDefault "buy milk".toList ∧ n.body = "buy milk".toList ∧
      persistedOf (process_simple_message ⟨[]⟩ 1 2 "buy milk".toList .failure (fun _ => none)).2 =
        [.note n, .message 2 "assistant".toList ("Created note: ".toList ++ n.title)] :=
  (simple_message_llm_failure_uses_keyword_heuristic ⟨[]⟩ 1 2 "buy milk".toList .failure
    (fun _ => none) (Or.inl rfl)).2 (by simp)

/-- C5: a brain-dump run whose LLM output is malformed (call raised, invalid
JSON after repair, or a payload that is not a dict of type "brain_dump" with
a list of items) returns exactly the simple-message path result on the same
text, persists exactly what the simple path persists — one note or one task
plus one assistant message — and persists no brain-dump items. -/
theorem brain_dump_malformed_degrades_to_simple_path (cfg : FallbackConfig)
    (uid cid : Nat) (text : Str) (bdOutcome simpleOutcome : LLMOutcome)
    (parse : Str → Option Json)
    (hbad : bdOutcome = .failure ∨
      ∃ c, bdOutcome = .success c ∧
        (parse (repairJson c) = none ∨
         ∃ d, parse (repairJson c) = some d ∧ brainDumpShapeOk d = false)) :
    (process_brain_dump cfg uid cid text bdOutcome simpleOutcome parse).1 =
      (process_simple_message cfg uid cid text simpleOutcome parse).1 ∧
    persistedOf (process_brain_dump cfg uid cid text bdOutcome simpleOutcome parse).2 =
      persistedOf (process_simple_message cfg uid cid text simpleOutcome parse).2 ∧
    ∃ p content,
      persistedOf (process_brain_dump cfg uid cid text bdOutcome simpleOutcome parse).2 =
        [p, .message cid "assistant".toList content] ∧
      ((∃ n, p = .note n ∧
          (process_brain_dump cfg uid cid text bdOutcome simpleOutcome parse).1 =
            OrchResult.note n) ∨
       (∃ t, p = .task t ∧
          (process_brain_dump cfg uid cid text bdOutcome simpleOutcome parse).1 =
            OrchResult.task t)) := by
  have hred : (process_brain_dump cfg uid cid text bdOutcome simpleOutcome parse).1 =
        (process_simple_message cfg uid cid text simpleOutcome parse).1 ∧
      persistedOf (process_brain_dump cfg uid cid text bdOutcome simpleOutcome parse).2 =
        persistedOf (process_simple_message cfg uid cid text simpleOutcome parse).2 := by
    rcases hbad with h | ⟨c, hc, hp | ⟨d, hp, hd⟩⟩
    · subst h; simp [process_brain_dump]
    · subst hc; simp [process_brain_dump, hp]
    · subst hc; simp [process_brain_dump, hp, hd]
  obtain ⟨p, content, hs2, hs1⟩ := process_simple_message_shape cfg uid cid text simpleOutcome parse
  refine ⟨hred.1, hred.2, p, content, by rw [hred.2, hs2], ?_⟩
  rcases hs1 with ⟨n, hpn, hn⟩ | ⟨t, hpt, ht⟩
  · exact Or.inl ⟨n, hpn, by rw [hred.1, hn]⟩
  · exact Or.inr ⟨t, hpt, by rw [hred.1, ht]⟩

/-- C5 witness: a brain-dump LLM response that is not valid JSON degrades to
the simple path on the same text, with exactly one note and one assistant
message persisted. -/
theorem brain_dump_malformed_witness :
    (process_brain_dump ⟨[]⟩ 1 2 "plan stuff".toList (.success "oops".toList) .failure
        (fun _ => none)).1 =
      (process_simple_message ⟨[]⟩ 1 2 "plan stuff".toList .failure (fun _ => none)).1 ∧
    persistedOf (process_brain_dump ⟨[]⟩ 1 2 "plan stuff".toList (.success "oops".toList)
        .failure (fun _ => none)).2 =
      persistedOf (process_simple_message ⟨[]⟩ 1 2 "plan stuff".toList .failure
        (fun _ => none)).2 :=
  let h := brain_dump_malformed_degrades_to_simple_path ⟨[]⟩ 1 2 "plan stuff".toList
    (.success "oops".toList) .failure (fun _ => none)
    (Or.inr ⟨"oops".toList, rfl, Or.inl rfl⟩)
  ⟨h.1, h.2.1⟩

/-- C6: `handle_message` persists the inbound text as a user message as its
first effect, strictly before any LLM call; when an unhandled environment
exception interrupts classification or processing, the failure is logged as
a failed orchestration result, the exception is re-raised, and the already
persisted user message remains in the trace. -/
theorem handle_message_persists_user_message_first (bd_cfg : BrainDumpConfig)
    (cfg : FallbackConfig) (uid cid : Nat) (text : Str)
    (bdOutcome simpleOutcome : LLMOutcome) (parse : Str → Option Json)
    (procError : Option Str) :
    (∃ rest, (handle_message bd_cfg cfg uid cid text bdOutcome simpleOutcome parse
        procError).2 = Effect.persist (.message cid "user".toList text) :: rest) ∧
    (∀ e, procError = some e →
      (handle_message bd_cfg cfg uid cid text bdOutcome simpleOutcome parse procError).1 =
        Except.error e ∧
      Effect.telemetryOrchestratorResult false ∈
        (handle_message bd_cfg cfg uid cid text bdOutcome simpleOutcome parse procError).2 ∧
      Effect.persist (.message cid "user".toList text) ∈
        (handle_message bd_cfg cfg uid cid text bdOutcome simpleOutcome parse procError).2) := by
  cases procError with
  | none => exact ⟨⟨_, rfl⟩, by intro e he; cases he⟩
  | some e0 =>
    refine ⟨⟨_, rfl⟩, ?_⟩
    intro e he
    injection he with he
    subst he
    exact ⟨rfl, by simp [handle_message], by simp [handle_message]⟩

/-- C6 witness: with an injected processing exception, the result is the
re-raised error while the user message persists and the failure is logged. -/
theorem handle_message_persists_user_message_first_witness :
    (handle_message ⟨[], []⟩ ⟨[]⟩ 1 2 "hi".toList .failure .failure (fun _ => none)
        (some "boom".toList)).1 = Except.error "boom".toList ∧
    Effect.telemetryOrchestratorResult false ∈
      (handle_message ⟨[], []⟩ ⟨[]⟩ 1 2 "hi".toList .failure .failure (fun _ => none)
        (some "boom".toList)).2 ∧
    Effect.persist (.message 2 "user".toList "hi".toList) ∈
      (handle_message ⟨[], []⟩ ⟨[]⟩ 1 2 "hi".toList .failure .failure (fun _ => none)
        (some "boom".toList)).2 :=
  (handle_message_persists_user_message_first ⟨[], []⟩ ⟨[]⟩ 1 2 "hi".toList .failure .failure
    (fun _ => none) (some "boom".toList)).2 "boom".toList rfl

/-- A conversation message as read back by the context query. -/
structure CtxMsg where
  role : Str
  content : Str
  deriving DecidableEq

/-- The skip loop of `_get_conversation_context`: scanning in chronological
order, a message is skipped when its role is "user" and no context message
has been collected yet. -/
def buildContext : List CtxMsg → List CtxMsg → List CtxMsg
  | [], acc => acc.reverse
  | m :: rest, acc =>
    if m.role = "user".toList ∧ acc = [] then buildContext rest acc
    else buildContext rest (m :: acc)

/-- The truncation loop of `_get_conversation_context`: scan newest-first,
keep messages while the running character count stays within 4000,
rebuilding in chronological order. -/
def truncGo : List CtxMsg → Nat → List CtxMsg → List CtxMsg
  | [], _, acc => acc
  | m :: rest, cur, acc =>
    if cur + m.content.length > 4000 then acc
    else truncGo rest (cur + m.content.length) (m :: acc)

/-- `OrchestratorService._get_conversation_context` over the conversation's
messages in chronological order, the just-inserted user message last (the
query orders by creation time descending with limit 10, and the loop walks
the reversal). -/
def get_conversation_context (allMessages : List CtxMsg) : List CtxMsg :=
  let recent := allMessages.reverse.take 10
  let chron := recent.reverse
  let context := buildContext chron []
  let total : Nat := (context.map (fun m => m.content.length)).sum
  if total > 4000 then truncGo context.reverse 0 [] else context

/-- Rows of the `conversations` table touched by the delete route. -/
structure ConvRow where
  id : Nat
  user_id : Nat
  title : Str
  deriving DecidableEq

/-- Rows of the `messages` table touched by the delete route. -/
structure MsgRow where
  id : Nat
  conversation_id : Nat
  deriving DecidableEq

/-- The relational state consulted by `delete_conversation`: conversations,
messages, and the next autoincrement conversation id. -/
structure ConvDB where
  conversations : List ConvRow
  messages : List MsgRow
  nextConvId : Nat
  deriving DecidableEq

/-- `routes/conversations.py delete_conversation`: 404 when the conversation
does not exist; otherwise delete its messages and the conversation, commit,
and when the owner has no conversation left create a fresh
"New Conversation" and report its id. -/
def delete_conversation (db : ConvDB) (cid : Nat) : Except Nat (ConvDB × Option Nat) :=
  match db.conversations.find? (fun c => c.id == cid) with
  | none => .error 404
  | some conv =>
    let msgs := db.messages.filter (fun m => m.conversation_id != cid)
    let convs := db.conversations.filter (fun c => c.id != cid)
    let remaining := (convs.filter (fun c => c.user_id == conv.user_id)).length
    if remaining = 0 then
      .ok ({ conversations := convs ++ [⟨db.nextConvId, conv.user_id, "New Conversation".toList⟩],
             messages := msgs, nextConvId := db.nextConvId + 1 }, some db.nextConvId)
    else
      .ok ({ conversations := convs, messages := msgs, nextConvId := db.nextConvId }, none)

/-- A captured HTTP response: status, body bytes, header pairs
(`IdempotencyMiddleware.cache` values). -/
structure HttpRespCap where
  status : Nat
  body : List Nat
  headers : List (Str × Str)
  deriving DecidableEq

/-- The request features consulted by the idempotency gate. -/
structure IdRequest where
  path : Str
  idempotency_key : Option Str
  deriving DecidableEq

/-- The cache fingerprint of (path, key): `hashlib.sha256` applied to
`path + "|" + key` is modelled as the injective encoding of its preimage. -/
def fingerprint (path key : Str) : Str := path ++ ['|'] ++ key

/-- `IdempotencyMiddleware.__call__` for one HTTP request: given the cache
and the downstream application (one full response per request), returns the
response sent to the client, the cache afterwards, and whether the
downstream pipeline was invoked.  The guard is `if not key:` — a falsy key,
that is an absent header or a present header with the empty string, passes
through without caching; a known fingerprint replays the captured entry;
otherwise the downstream response is captured and stored. -/
def idempotencyCall (cache : List (Str × HttpRespCap)) (req : IdRequest)
    (app : IdRequest → HttpRespCap) :
    HttpRespCap × List (Str × HttpRespCap) × Bool :=
  match req.idempotency_key with
  | none => (app req, cache, true)
  | some key =>
    if key = [] then (app req, cache, true)
    else
      let fp := fingerprint req.path key
      match cache.lookup fp with
      | some cached => (cached, cache, false)
      | none =>
        let resp := app req
        (resp, (fp, resp) :: cache, true)

/-- Rate limit configuration (`RateLimitConfig`; `_check_rate_limit` reads
only the limit and window).  Timestamps (`time.time()` floats) are modelled
as rationals. -/
structure RLConfig where
  limit : Nat
  window_seconds : ℚ
  deriving DecidableEq

/-- Expiry pruning of `_check_rate_limit`:
`while bucket and bucket[0] < cutoff: bucket.popleft()`. -/
def pruneBucket (bucket : List ℚ) (cutoff : ℚ) : List ℚ :=
  bucket.dropWhile (fun t => decide (t < cutoff))

/-- The triple reported by `_check_rate_limit`. -/
structure RLCheck where
  is_allowed : Bool
  remaining : Int
  reset_time : ℚ
  deriving DecidableEq

/-- `EnhancedRateLimitMiddleware._check_rate_limit`: prune expired
timestamps, admit iff the surviving count is below the limit, compute the
remaining counter and the reset time, and append the current time when
admitted.  Returns the reported triple and the updated bucket. -/
def check_rate_limit (config : RLConfig) (now : ℚ) (bucket0 : List ℚ) :
    RLCheck × List ℚ :=
  let bucket := pruneBucket bucket0 (now - config.window_seconds)
  let current_count := bucket.length
  let is_allowed := decide (current_count < config.limit)
  let remaining : Int := max 0 ((config.limit : Int) - current_count)
  let reset_time :=
    match bucket with
    | [] => now + config.window_seconds
    | t :: _ => t + config.window_seconds
  if is_allowed then
    ({ is_allowed := true, remaining := remaining - 1, reset_time := reset_time },
     bucket ++ [now])
  else
    ({ is_allowed := false, remaining := remaining, reset_time := reset_time }, bucket)

/-- Python `int()` truncation toward zero on a rational. -/
def pyInt (q : ℚ) : Int := if q < 0 then -Int.floor (-q) else Int.floor q

/-- Observable response summary for one request through the middleware:
status, the reported remaining counter (hard-coded 0 on a 429), the reset
time, and the 429 body's `retry_after`. -/
structure RLResponse where
  status : Nat
  remaining : Int
  reset_time : ℚ
  retry_after : Option Int
  deriving DecidableEq

/-- The bucket table `self._buckets`, keyed by user key and endpoint class;
missing keys read as empty deques (defaultdict). -/
def RLState := Str → Str → List ℚ

/-- One request through `EnhancedRateLimitMiddleware.__call__` for a fixed
endpoint configuration.  The opportunistic cleanup sweep is omitted: it only
removes timestamps older than twice the window (already dropped by the
stricter pruning of `_check_rate_limit` before any decision) and empty
buckets, so it does not affect any reported value. -/
def rateLimitStep (config : RLConfig) (st : RLState) (user endpoint : Str) (now : ℚ) :
    RLResponse × RLState :=
  let res := check_rate_limit config now (st user endpoint)
  let st2 : RLState := fun u e => if u = user ∧ e = endpoint then res.2 else st u e
  if res.1.is_allowed then
    ({ status := 200, remaining := res.1.remaining, reset_time := res.1.reset_time,
       retry_after := none }, st2)
  else
    ({ status := 429, remaining := 0, reset_time := res.1.reset_time,
       retry_after := some (pyInt (res.1.reset_time - now)) }, st2)

/-- A sequence of requests from one user key to one endpoint class, at the
given times. -/
def runRL (config : RLConfig) (user endpoint : Str) (st : RLState) :
    List ℚ → List RLResponse × RLState
  | [] => ([], st)
  | t :: ts =>
    let pr := rateLimitStep config st user endpoint t
    let rest := runRL config user endpoint pr.2 ts
    (pr.1 :: rest.1, rest.2)

/-- The reset time reported by `_check_rate_limit`: oldest surviving
timestamp plus the window, or now plus the window when the pruned bucket is
empty. -/
def rlReset (config : RLConfig) (now : ℚ) (bucket : List ℚ) : ℚ :=
  match pruneBucket bucket (now - config.window_seconds) with
  | [] => now + config.window_seconds
  | t :: _ => t + config.window_seconds

/-- Outcome of the HTTP POST issued by `OllamaProvider.generate`:
a raised transport error (connection failure, timeout), or a response with
its final status code and its JSON-decoded body (`none` when `r.json()`
raises on a non-JSON body). -/
inductive HttpOutcome where
  | transportError
  | response (status : Nat) (body : Option Json)

/-- `OllamaProvider.generate`: `requests.post` raises on transport errors;
`raise_for_status` raises exactly for 4xx/5xx statuses; `r.json()` raises on
an unparsable body; the content is `data.get("message", {}).get("content",
"")`, which raises when the payload or a present "message" is not a dict.
The returned value is the extracted content. -/
def ollama_generate (outcome : HttpOutcome) : Except Str Json :=
  match outcome with
  | .transportError => .error "requests.post".toList
  | .response status body =>
    if 400 ≤ status ∧ status < 600 then .error "raise_for_status".toList
    else
      match body with
      | none => .error "r.json".toList
      | some data =>
        match data with
        | .obj _ =>
          match (data.get? "message".toList).getD (.obj []) with
          | .obj mf => .ok (((Json.obj mf).get? "content".toList).getD (.str []))
          | _ => .error "AttributeError".toList
        | _ => .error "AttributeError".toList

end NoteTaker

namespace NoteTaker

/-- C1: the brain-dump classifier returns true if and only if at least two of
the six signals fire (text length > 100, newline count > 2, period count > 3,
comma count > 4, some configured action keyword occurring in the lowercased
text, and more than 2 whitespace-separated tokens being configured
organizational keywords); with at most one signal firing it returns false. -/
theorem is_brain_dump_iff_two_signals (cfg : BrainDumpConfig) (text : Str) :
    is_brain_dump cfg text = true ↔ 2 ≤ signalCount cfg text := by
  have hthr : brain_dump_threshold = 100 := rfl
  simp only [is_brain_dump, brainDumpIndicators, signalCount, hthr,
    List.countP_cons, List.countP_nil, decide_eq_true_eq, id, List.any_eq_true]
  by_cases h1 : text.length > 100 <;>
    by_cases h2 : text.count (Char.ofNat 10) > 2 <;>
      by_cases h3 : text.count '.' > 3 <;>
        by_cases h4 : text.count ',' > 4 <;>
          by_cases h5 : ∃ k ∈ cfg.action_keywords, isSubstr k (pyLower text) = true <;>
            by_cases h6 :
              ((pyWords text).filter (fun w => pyLower w ∈ cfg.organizational_keywords)).length > 2 <;>
              simp [h1, h2, h3, h4, h5, h6]


/-- C7: counter-evaluation of the context assembly.  With chronological
history user "hello", assistant "hi", and the just-inserted user message
"new question", the returned context contains the just-inserted user message
and has dropped the oldest message, contradicting the claimed exclusion of
the just-inserted message: the skip condition removes leading user messages
of the chronological scan, not the newest one. -/
theorem get_conversation_context_keeps_current_message :
    get_conversation_context
      [⟨"user".toList, "hello".toList⟩, ⟨"assistant".toList, "hi".toList⟩,
       ⟨"user".toList, "new question".toList⟩] =
      [⟨"assistant".toList, "hi".toList⟩, ⟨"user".toList, "new question".toList⟩] := by
  decide

/-- C8: deleting an existing conversation removes all its messages and the
conversation itself, afterwards its owner still has at least one
conversation, a replacement conversation is created exactly when the
deleted one was the owner's last, and the replacement (when created) is
empty and owned by the same user.  The freshness hypotheses are the
autoincrement-key invariants of the store. -/
theorem delete_conversation_spec (db : ConvDB) (cid : Nat) (conv : ConvRow)
    (hfind : db.conversations.find? (fun c => c.id == cid) = some conv)
    (hfreshm : ∀ m ∈ db.messages, m.conversation_id < db.nextConvId)
    (hfreshc : ∀ c ∈ db.conversations, c.id < db.nextConvId) :
    ∃ db2 newId, delete_conversation db cid = .ok (db2, newId) ∧
      (∀ m ∈ db2.messages, m.conversation_id ≠ cid) ∧
      (∀ c ∈ db2.conversations, c.id ≠ cid) ∧
      1 ≤ (db2.conversations.filter (fun c => c.user_id == conv.user_id)).length ∧
      ((∃ i, newId = some i) ↔
        ((db.conversations.filter (fun c => c.id != cid)).filter
          (fun c => c.user_id == conv.user_id)).length = 0) ∧
      (∀ i, newId = some i →
        (∃ c ∈ db2.conversations, c.id = i ∧ c.user_id = conv.user_id) ∧
        ∀ m ∈ db2.messages, m.conversation_id ≠ i) := by
  have hcid : conv.id = cid := by simpa using List.find?_some hfind
  have hmem : conv ∈ db.conversations := List.mem_of_find?_eq_some hfind
  have hcidlt : cid < db.nextConvId := hcid ▸ hfreshc conv hmem
  simp only [delete_conversation, hfind]
  split
  next hrem =>
    refine ⟨_, some db.nextConvId, rfl, ?_, ?_, ?_, ?_, ?_⟩
    · intro m hm
      simpa using List.of_mem_filter hm
    · intro c hc
      rcases List.mem_append.mp hc with hc | hc
      · simpa using List.of_mem_filter hc
      · simp only [List.mem_singleton] at hc
        subst hc
        exact Ne.symm (Nat.ne_of_lt hcidlt)
    · show 1 ≤ (((db.conversations.filter (fun c => c.id != cid)) ++
          [(⟨db.nextConvId, conv.user_id, "New Conversation".toList⟩ : ConvRow)]).filter
          (fun c => c.user_id == conv.user_id)).length
      have hmemf : (⟨db.nextConvId, conv.user_id, "New Conversation".toList⟩ : ConvRow) ∈
          ((db.conversations.filter (fun c => c.id != cid)) ++
            [(⟨db.nextConvId, conv.user_id, "New Conversation".toList⟩ : ConvRow)]).filter
            (fun c => c.user_id == conv.user_id) :=
        List.mem_filter.mpr ⟨by simp, by simp⟩
      exact List.length_pos.mpr (List.ne_nil_of_mem hmemf)
    · exact iff_of_true ⟨db.nextConvId, rfl⟩ hrem
    · intro i hi
      injection hi with hi
      subst hi
      refine ⟨⟨⟨db.nextConvId, conv.user_id, "New Conversation".toList⟩, by simp, rfl, rfl⟩, ?_⟩
      intro m hm
      exact Nat.ne_of_lt (hfreshm m (List.mem_of_mem_filter hm))
  next hrem =>
    refine ⟨_, none, rfl, ?_, ?_, ?_, ?_, ?_⟩
    · intro m hm
      simpa using List.of_mem_filter hm
    · intro c hc
      simpa using List.of_mem_filter hc
    · show 1 ≤ ((db.conversations.filter (fun c => c.id != cid)).filter
          (fun c => c.user_id == conv.user_id)).length
      omega
    · exact iff_of_false (by rintro ⟨i, hi⟩; cases hi) hrem
    · intro i hi
      cases hi

/-- C8 witness: deleting the only conversation of user 1 removes its message
and creates a fresh empty conversation for the same user. -/
theorem delete_conversation_witness :
    ∃ db2 newId,
      delete_conversation ⟨[⟨1, 1, []⟩], [⟨7, 1⟩], 2⟩ 1 = .ok (db2, newId) ∧
      (∀ m ∈ db2.messages, m.conversation_id ≠ 1) ∧
      (∀ c ∈ db2.conversations, c.id ≠ 1) ∧
      1 ≤ (db2.conversations.filter (fun c => c.user_id == (1 : Nat))).length ∧
      ((∃ i, newId = some i) ↔
        ((([⟨1, 1, []⟩] : List ConvRow).filter (fun c => c.id != 1)).filter
          (fun c => c.user_id == (1 : Nat))).length = 0) ∧
      (∀ i, newId = some i →
        (∃ c ∈ db2.conversations, c.id = i ∧ c.user_id = 1) ∧
        ∀ m ∈ db2.messages, m.conversation_id ≠ i) :=
  delete_conversation_spec ⟨[⟨1, 1, []⟩], [⟨7, 1⟩], 2⟩ 1 ⟨1, 1, []⟩ (by decide)
    (by decide) (by decide)


/-- C2 counterexample: a present-but-empty Idempotency-Key is falsy, so the
code passes both requests through — the downstream pipeline is invoked both
times and the bodies differ, refuting the claimed byte-identical replay and
at-most-once side effect for every key. -/
theorem idempotency_empty_key_not_deduplicated :
    (idempotencyCall [] ⟨"/api/x".toList, some []⟩ (fun _ => ⟨200, [1, 2], []⟩)).2.2 =
      true ∧
    (idempotencyCall (idempotencyCall [] ⟨"/api/x".toList, some []⟩
        (fun _ => ⟨200, [1, 2], []⟩)).2.1 ⟨"/api/x".toList, some []⟩
      (fun _ => ⟨500, [9], []⟩)).2.2 = true ∧
    (idempotencyCall [] ⟨"/api/x".toList, some []⟩ (fun _ => ⟨200, [1, 2], []⟩)).1.body ≠
      (idempotencyCall (idempotencyCall [] ⟨"/api/x".toList, some []⟩
          (fun _ => ⟨200, [1, 2], []⟩)).2.1 ⟨"/api/x".toList, some []⟩
        (fun _ => ⟨500, [9], []⟩)).1.body := by
  decide

/-- C2 (amended): for every nonempty idempotency key, a cached fingerprint
is replayed exactly (status, body bytes, headers) without invoking the
downstream pipeline; two requests carrying the same nonempty key to the
same path (even with different downstream behaviour, modelling different
request bodies) receive byte-identical bodies with the downstream side
effect occurring at most once; a request whose header is absent — or
present but empty, which the code's falsiness guard treats the same way —
passes through unmodified. -/
theorem idempotency_replay_exact_at_most_once (cache : List (Str × HttpRespCap))
    (req1 req2 : IdRequest) (app1 app2 : IdRequest → HttpRespCap) (key : Str)
    (h1 : req1.idempotency_key = some key) (h2 : req2.idempotency_key = some key)
    (hpath : req2.path = req1.path) (hkey : key ≠ []) :
    (∀ e, cache.lookup (fingerprint req1.path key) = some e →
      idempotencyCall cache req1 app1 = (e, cache, false)) ∧
    ((idempotencyCall cache req1 app1).1.body =
      (idempotencyCall (idempotencyCall cache req1 app1).2.1 req2 app2).1.body ∧
     ¬((idempotencyCall cache req1 app1).2.2 = true ∧
       (idempotencyCall (idempotencyCall cache req1 app1).2.1 req2 app2).2.2 = true)) ∧
    (∀ (c : List (Str × HttpRespCap)) (r : IdRequest) (a : IdRequest → HttpRespCap),
      r.idempotency_key = none → idempotencyCall c r a = (a r, c, true)) ∧
    (∀ (c : List (Str × HttpRespCap)) (r : IdRequest) (a : IdRequest → HttpRespCap),
      r.idempotency_key = some [] → idempotencyCall c r a = (a r, c, true)) := by
  refine ⟨?_, ?_, ?_, ?_⟩
  · intro e he
    simp [idempotencyCall, h1, hkey, he]
  · cases hl : cache.lookup (fingerprint req1.path key) with
    | some e =>
      constructor <;> simp [idempotencyCall, h1, h2, hpath, hkey, hl]
    | none =>
      constructor <;> simp [idempotencyCall, h1, h2, hpath, hkey, hl, List.lookup]
  · intro c r a hr
    simp [idempotencyCall, hr]
  · intro c r a hr
    simp [idempotencyCall, hr]

/-- C2 witness: two concrete requests with the same nonempty key and path,
whose downstream handlers return different bodies, still get identical
bodies and a single downstream invocation; falsy-key requests pass
through. -/
theorem idempotency_replay_witness :
    (∀ e, ([] : List (Str × HttpRespCap)).lookup
        (fingerprint "/api/x".toList "abc".toList) = some e →
      idempotencyCall [] ⟨"/api/x".toList, some "abc".toList⟩
        (fun _ => ⟨200, [1, 2], []⟩) = (e, [], false)) ∧
    ((idempotencyCall [] ⟨"/api/x".toList, some "abc".toList⟩
        (fun _ => ⟨200, [1, 2], []⟩)).1.body =
      (idempotencyCall (idempotencyCall [] ⟨"/api/x".toList, some "abc".toList⟩
          (fun _ => ⟨200, [1, 2], []⟩)).2.1 ⟨"/api/x".toList, some "abc".toList⟩
        (fun _ => ⟨500, [9], []⟩)).1.body ∧
     ¬((idempotencyCall [] ⟨"/api/x".toList, some "abc".toList⟩
          (fun _ => ⟨200, [1, 2], []⟩)).2.2 = true ∧
       (idempotencyCall (idempotencyCall [] ⟨"/api/x".toList, some "abc".toList⟩
            (fun _ => ⟨200, [1, 2], []⟩)).2.1 ⟨"/api/x".toList, some "abc".toList⟩
          (fun _ => ⟨500, [9], []⟩)).2.2 = true)) ∧
    (∀ (c : List (Str × HttpRespCap)) (r : IdRequest) (a : IdRequest → HttpRespCap),
      r.idempotency_key = none → idempotencyCall c r a = (a r, c, true)) ∧
    (∀ (c : List (Str × HttpRespCap)) (r : IdRequest) (a : IdRequest → HttpRespCap),
      r.idempotency_key = some [] → idempotencyCall c r a = (a r, c, true)) :=
  idempotency_replay_exact_at_most_once [] ⟨"/api/x".toList, some "abc".toList⟩
    ⟨"/api/x".toList, some "abc".toList⟩ (fun _ => ⟨200, [1, 2], []⟩)
    (fun _ => ⟨500, [9], []⟩) "abc".toList rfl rfl rfl (by decide)


theorem dropWhile_imp {α : Type} (p q : α → Bool) (l : List α)
    (h : ∀ x, p x = true → q x = true) :
    (l.dropWhile p).dropWhile q = l.dropWhile q := by
  induction l with
  | nil => rfl
  | cons x xs ih =>
    by_cases hp : p x = true
    · rw [List.dropWhile_cons_of_pos hp, List.dropWhile_cons_of_pos (h x hp)]
      exact ih
    · rw [List.dropWhile_cons_of_neg hp]

/-- Pruning twice with a later cutoff equals pruning once with the later
cutoff. -/
theorem pruneBucket_pruneBucket (bucket : List ℚ) (c1 c2 : ℚ) (h : c1 ≤ c2) :
    pruneBucket (pruneBucket bucket c1) c2 = pruneBucket bucket c2 := by
  apply dropWhile_imp
  intro x hx
  simp only [decide_eq_true_eq] at hx ⊢
  exact lt_of_lt_of_le hx h

/-- Case analysis of `_check_rate_limit`: either the pruned count is below
the limit and the request is admitted (timestamp appended, remaining
decremented), or it is rejected (bucket left pruned, remaining zero). -/
theorem check_rate_limit_cases (config : RLConfig) (now : ℚ) (bucket : List ℚ) :
    ((pruneBucket bucket (now - config.window_seconds)).length < config.limit ∧
      check_rate_limit config now bucket =
        ({ is_allowed := true,
           remaining := (config.limit : Int) -
             (pruneBucket bucket (now - config.window_seconds)).length - 1,
           reset_time := rlReset config now bucket },
         pruneBucket bucket (now - config.window_seconds) ++ [now])) ∨
    (config.limit ≤ (pruneBucket bucket (now - config.window_seconds)).length ∧
      check_rate_limit config now bucket =
        ({ is_allowed := false, remaining := 0, reset_time := rlReset config now bucket },
         pruneBucket bucket (now - config.window_seconds))) := by
  by_cases hc : (pruneBucket bucket (now - config.window_seconds)).length < config.limit
  · left
    refine ⟨hc, ?_⟩
    have hmax : max 0 ((config.limit : Int) -
        (pruneBucket bucket (now - config.window_seconds)).length) =
        (config.limit : Int) - (pruneBucket bucket (now - config.window_seconds)).length :=
      max_eq_right (by omega)
    simp [check_rate_limit, rlReset, hc, hmax]
  · right
    refine ⟨by omega, ?_⟩
    have hmax : max 0 ((config.limit : Int) -
        (pruneBucket bucket (now - config.window_seconds)).length) = 0 :=
      max_eq_left (by omega)
    simp [check_rate_limit, rlReset, hc, hmax]

/-- An admitted request through the middleware: 200 status, the decremented
remaining counter, the reset time, and the timestamp appended to the
caller's bucket only. -/
theorem rateLimitStep_allowed (config : RLConfig) (st : RLState) (u e : Str) (now : ℚ)
    (h : (pruneBucket (st u e) (now - config.window_seconds)).length < config.limit) :
    rateLimitStep config st u e now =
      ({ status := 200,
         remaining := (config.limit : Int) -
           (pruneBucket (st u e) (now - config.window_seconds)).length - 1,
         reset_time := rlReset config now (st u e), retry_after := none },
       fun u2 e2 => if u2 = u ∧ e2 = e then
         pruneBucket (st u e) (now - config.window_seconds) ++ [now] else st u2 e2) := by
  rcases check_rate_limit_cases config now (st u e) with ⟨_, heq⟩ | ⟨hc, _⟩
  · simp [rateLimitStep, heq]
  · omega

/-- A rejected request through the middleware: 429 status, remaining zero,
retry_after computed from the reset time, and the caller's bucket left
pruned with no timestamp appended. -/
theorem rateLimitStep_rejected (config : RLConfig) (st : RLState) (u e : Str) (now : ℚ)
    (h : config.limit ≤ (pruneBucket (st u e) (now - config.window_seconds)).length) :
    rateLimitStep config st u e now =
      ({ status := 429, remaining := 0, reset_time := rlReset config now (st u e),
         retry_after := some (pyInt (rlReset config now (st u e) - now)) },
       fun u2 e2 => if u2 = u ∧ e2 = e then
         pruneBucket (st u e) (now - config.window_seconds) else st u2 e2) := by
  rcases check_rate_limit_cases config now (st u e) with ⟨hc, _⟩ | ⟨_, heq⟩
  · omega
  · simp [rateLimitStep, heq]

theorem rlReset_cons (config : RLConfig) (now t0 : ℚ) (pre : List ℚ)
    (h : ¬ t0 < now - config.window_seconds) :
    rlReset config now (t0 :: pre) = t0 + config.window_seconds := by
  simp [rlReset, pruneBucket, List.dropWhile_cons, h]

theorem pruneBucket_cons_of_kept (now t0 : ℚ) (w : ℚ) (pre : List ℚ)
    (h : ¬ t0 < now - w) :
    pruneBucket (t0 :: pre) (now - w) = t0 :: pre := by
  simp [pruneBucket, List.dropWhile_cons, h]

/-- A run of requests whose bucket already holds `t0 :: pre` and whose times
all keep `t0` unexpired admits every request when the total count stays
within the limit, appending the times in order and leaving every other
bucket untouched. -/
theorem runRL_admits_all (config : RLConfig) (u e : Str) (t0 : ℚ) :
    ∀ (ts pre : List ℚ) (st : RLState), st u e = t0 :: pre →
    (∀ t ∈ ts, ¬ t0 < t - config.window_seconds) →
    ((t0 :: pre).length + ts.length ≤ config.limit) →
    (∀ r ∈ (runRL config u e st ts).1, r.status = 200) ∧
    (runRL config u e st ts).2 u e = (t0 :: pre) ++ ts ∧
    (∀ u2 e2, ¬(u2 = u ∧ e2 = e) → (runRL config u e st ts).2 u2 e2 = st u2 e2) := by
  intro ts
  induction ts with
  | nil =>
    intro pre st hst _ _
    exact ⟨by simp [runRL], by simp [runRL, hst], fun u2 e2 _ => by simp [runRL]⟩
  | cons t ts ih =>
    intro pre st hst hwin hlen
    have hkept : pruneBucket (st u e) (t - config.window_seconds) = t0 :: pre := by
      rw [hst]; exact pruneBucket_cons_of_kept t t0 _ pre (hwin t (by simp))
    have hcount : (pruneBucket (st u e) (t - config.window_seconds)).length < config.limit := by
      rw [hkept]; simp at hlen ⊢; omega
    have hstep := rateLimitStep_allowed config st u e t hcount
    have hst2 : (fun u2 e2 => if u2 = u ∧ e2 = e then
        pruneBucket (st u e) (t - config.window_seconds) ++ [t] else st u2 e2) u e =
        t0 :: (pre ++ [t]) := by
      simp [hkept]
    have hrec := ih (pre ++ [t])
      (fun u2 e2 => if u2 = u ∧ e2 = e then
        pruneBucket (st u e) (t - config.window_seconds) ++ [t] else st u2 e2)
      hst2 (fun x hx => hwin x (by simp [hx]))
      (by simp at hlen ⊢; omega)
    refine ⟨?_, ?_, ?_⟩
    · intro r hr
      simp only [runRL, hstep] at hr
      rcases List.mem_cons.mp hr with hr | hr
      · subst hr; rfl
      · exact hrec.1 r hr
    · simp only [runRL, hstep]
      rw [hrec.2.1]
      simp
    · intro u2 e2 hne
      simp only [runRL, hstep]
      rw [hrec.2.2 u2 e2 hne]
      simp [hne]

theorem runRL_append (config : RLConfig) (u e : Str) (st : RLState) (xs ys : List ℚ) :
    runRL config u e st (xs ++ ys) =
      ((runRL config u e st xs).1 ++
        (runRL config u e (runRL config u e st xs).2 ys).1,
       (runRL config u e (runRL config u e st xs).2 ys).2) := by
  induction xs generalizing st with
  | nil => simp [runRL]
  | cons x xs ih => simp [runRL, ih]

/-- Nonnegative rationals truncate to nonnegative integers. -/
theorem pyInt_nonneg (q : ℚ) (h : 0 ≤ q) : 0 ≤ pyInt q := by
  unfold pyInt
  split
  next hneg => exact absurd h (not_le.mpr hneg)
  next => exact Int.floor_nonneg.mpr h

theorem runRL_nil (config : RLConfig) (u e : Str) (st : RLState) :
    runRL config u e st [] = ([], st) := rfl

theorem runRL_cons (config : RLConfig) (u e : Str) (st : RLState) (t : ℚ) (ts : List ℚ) :
    runRL config u e st (t :: ts) =
      ((rateLimitStep config st u e t).1 ::
        (runRL config u e (rateLimitStep config st u e t).2 ts).1,
       (runRL config u e (rateLimitStep config st u e t).2 ts).2) := rfl

theorem runRL_length (config : RLConfig) (u e : Str) :
    ∀ (ts : List ℚ) (st : RLState), (runRL config u e st ts).1.length = ts.length := by
  intro ts
  induction ts with
  | nil => intro st; simp [runRL]
  | cons t ts ih => intro st; simp [runRL_cons, ih]

/-- C3 (amended): per request, timestamps older than now minus the window
are dropped and the request is admitted iff the surviving count is below
the limit; an admitted response reports remaining = limit − count − 1,
always ≥ 0; the reported reset time is the oldest surviving timestamp plus
the window, or now plus the window on an empty bucket; a sequence of
limit+1 requests within the window from one user key yields exactly one
rejection — the last — as a 429 with retry_after ≥ 0 (amended from the
claimed strict positivity: the 429 body truncates the remaining window to
whole seconds, so a rejection during the final second of the window reports
retry_after = 0), while distinct user keys are unaffected. -/
theorem rate_limit_sliding_window_spec (config : RLConfig) (u e : Str)
    (t0 tN : ℚ) (mid : List ℚ)
    (hmid : mid.length + 1 = config.limit)
    (hwin : ∀ t ∈ mid ++ [tN], t0 ≤ t ∧ t < t0 + config.window_seconds) :
    (∀ now bucket,
      ((check_rate_limit config now bucket).1.is_allowed = true ↔
        (pruneBucket bucket (now - config.window_seconds)).length < config.limit) ∧
      ((check_rate_limit config now bucket).1.is_allowed = true →
        (check_rate_limit config now bucket).1.remaining =
          (config.limit : Int) -
            (pruneBucket bucket (now - config.window_seconds)).length - 1 ∧
        0 ≤ (check_rate_limit config now bucket).1.remaining ∧
        (check_rate_limit config now bucket).2 =
          pruneBucket bucket (now - config.window_seconds) ++ [now]) ∧
      (pruneBucket bucket (now - config.window_seconds) = [] →
        (check_rate_limit config now bucket).1.reset_time =
          now + config.window_seconds) ∧
      (∀ t rest, pruneBucket bucket (now - config.window_seconds) = t :: rest →
        (check_rate_limit config now bucket).1.reset_time =
          t + config.window_seconds)) ∧
    (∃ rs rlast,
      (runRL config u e (fun _ _ => []) (t0 :: mid ++ [tN])).1 = rs ++ [rlast] ∧
      rs.length = config.limit ∧
      (∀ r ∈ rs, r.status = 200) ∧
      rlast.status = 429 ∧ rlast.remaining = 0 ∧
      rlast.reset_time = t0 + config.window_seconds ∧
      (∃ ra, rlast.retry_after = some ra ∧ 0 ≤ ra) ∧
      (∀ u2 e2, ¬(u2 = u ∧ e2 = e) →
        (runRL config u e (fun _ _ => []) (t0 :: mid ++ [tN])).2 u2 e2 = []) ∧
      (∀ v tv, ¬ v = u →
        (rateLimitStep config
          (runRL config u e (fun _ _ => []) (t0 :: mid ++ [tN])).2 v e tv).1.status =
          200)) := by
  have hpos : 0 < config.limit := by omega
  constructor
  · intro now bucket
    rcases check_rate_limit_cases config now bucket with ⟨hc, heq⟩ | ⟨hc, heq⟩
    · refine ⟨by simp [heq, hc], ?_, ?_, ?_⟩
      · intro _
        refine ⟨by simp [heq], by simp [heq]; omega, by simp [heq]⟩
      · intro hnil
        simp [heq, rlReset, hnil]
      · intro t rest hcons
        simp [heq, rlReset, hcons]
    · refine ⟨by simp [heq]; omega, ?_, ?_, ?_⟩
      · intro hallow
        rw [heq] at hallow
        simp at hallow
      · intro hnil
        simp [heq, rlReset, hnil]
      · intro t rest hcons
        simp [heq, rlReset, hcons]
  · have hwinN := hwin tN (by simp)
    have hkept0 : ∀ t : ℚ, t < t0 + config.window_seconds →
        ¬ t0 < t - config.window_seconds := by
      intro t ht hcon
      linarith
    have hstep0 := rateLimitStep_allowed config (fun _ _ => []) u e t0
      (by simpa [pruneBucket] using hpos)
    set st1 : RLState := fun u2 e2 => if u2 = u ∧ e2 = e then
        pruneBucket ((fun _ _ => ([] : List ℚ)) u e) (t0 - config.window_seconds) ++ [t0]
      else (fun _ _ => ([] : List ℚ)) u2 e2 with hst1def
    have hst1ue : st1 u e = t0 :: [] := by simp [hst1def, pruneBucket]
    have hmidrun := runRL_admits_all config u e t0 mid [] st1 hst1ue
      (fun t ht => hkept0 t (hwin t (by simp [ht])).2)
      (by simp; omega)
    set st2 := (runRL config u e st1 mid).2 with hst2def
    have hst2ue : st2 u e = t0 :: mid := by
      have h := hmidrun.2.1
      simpa using h
    have hkeptN : pruneBucket (st2 u e) (tN - config.window_seconds) = t0 :: mid := by
      rw [hst2ue]
      exact pruneBucket_cons_of_kept tN t0 _ mid (hkept0 tN hwinN.2)
    have hstepN := rateLimitStep_rejected config st2 u e tN
      (by rw [hkeptN]; simp; omega)
    have hresetN : rlReset config tN (st2 u e) = t0 + config.window_seconds := by
      rw [hst2ue]
      exact rlReset_cons config tN t0 mid (hkept0 tN hwinN.2)
    have hA : runRL config u e (fun _ _ => []) (t0 :: mid) =
        ((rateLimitStep config (fun _ _ => []) u e t0).1 ::
          (runRL config u e st1 mid).1, st2) := by
      rw [runRL_cons, hstep0]
    have hsplit : t0 :: mid ++ [tN] = (t0 :: mid) ++ [tN] := rfl
    have hrun1 : (runRL config u e (fun _ _ => []) (t0 :: mid ++ [tN])).1 =
        ((rateLimitStep config (fun _ _ => []) u e t0).1 ::
          (runRL config u e st1 mid).1) ++ [(rateLimitStep config st2 u e tN).1] := by
      rw [hsplit, runRL_append, hA]
      simp [runRL_cons, runRL_nil]
    have hfinal : (runRL config u e (fun _ _ => []) (t0 :: mid ++ [tN])).2 =
        (rateLimitStep config st2 u e tN).2 := by
      rw [hsplit, runRL_append, hA]
      simp [runRL_cons, runRL_nil]
    have hframe : ∀ u2 e2, ¬(u2 = u ∧ e2 = e) →
        (runRL config u e (fun _ _ => []) (t0 :: mid ++ [tN])).2 u2 e2 = [] := by
      intro u2 e2 hne
      rw [hfinal, hstepN]
      have h2 := hmidrun.2.2 u2 e2 hne
      simp only [hne, if_false]
      rw [h2, hst1def]
      simp [hne]
    refine ⟨(rateLimitStep config (fun _ _ => []) u e t0).1 ::
        (runRL config u e st1 mid).1,
      (rateLimitStep config st2 u e tN).1, hrun1, ?_, ?_, ?_, ?_, ?_, ?_, hframe, ?_⟩
    · simp [runRL_length]
      omega
    · intro r hr
      rcases List.mem_cons.mp hr with hr | hr
      · subst hr
        rw [hstep0]
      · exact hmidrun.1 r hr
    · rw [hstepN]
    · rw [hstepN]
    · rw [hstepN]
      exact hresetN
    · refine ⟨pyInt (rlReset config tN (st2 u e) - tN), by rw [hstepN], ?_⟩
      apply pyInt_nonneg
      rw [hresetN]
      linarith [hwinN.2]
    · intro v tv hv
      have hb : (runRL config u e (fun _ _ => []) (t0 :: mid ++ [tN])).2 v e = [] :=
        hframe v e (by simp [hv])
      have hall := rateLimitStep_allowed config
        (runRL config u e (fun _ _ => []) (t0 :: mid ++ [tN])).2 v e tv
        (by rw [hb]; simpa [pruneBucket] using hpos)
      rw [hall]

/-- C3 witness: limit 1, window 60, requests at times 0 then 1 from user
"a": the first is admitted, the second rejected with nonnegative
retry_after, and user "b" is untouched. -/
theorem rate_limit_sliding_window_witness :
    (∀ now bucket,
      ((check_rate_limit ⟨1, 60⟩ now bucket).1.is_allowed = true ↔
        (pruneBucket bucket (now - (60 : ℚ))).length < 1) ∧
      ((check_rate_limit ⟨1, 60⟩ now bucket).1.is_allowed = true →
        (check_rate_limit ⟨1, 60⟩ now bucket).1.remaining =
          (1 : Int) - (pruneBucket bucket (now - (60 : ℚ))).length - 1 ∧
        0 ≤ (check_rate_limit ⟨1, 60⟩ now bucket).1.remaining ∧
        (check_rate_limit ⟨1, 60⟩ now bucket).2 =
          pruneBucket bucket (now - (60 : ℚ)) ++ [now]) ∧
      (pruneBucket bucket (now - (60 : ℚ)) = [] →
        (check_rate_limit ⟨1, 60⟩ now bucket).1.reset_time = now + (60 : ℚ)) ∧
      (∀ t rest, pruneBucket bucket (now - (60 : ℚ)) = t :: rest →
        (check_rate_limit ⟨1, 60⟩ now bucket).1.reset_time = t + (60 : ℚ))) ∧
    (∃ rs rlast,
      (runRL ⟨1, 60⟩ "a".toList "m".toList (fun _ _ => []) ((0 : ℚ) :: [] ++ [1])).1 =
        rs ++ [rlast] ∧
      rs.length = 1 ∧
      (∀ r ∈ rs, r.status = 200) ∧
      rlast.status = 429 ∧ rlast.remaining = 0 ∧
      rlast.reset_time = (0 : ℚ) + 60 ∧
      (∃ ra, rlast.retry_after = some ra ∧ 0 ≤ ra) ∧
      (∀ u2 e2, ¬(u2 = "a".toList ∧ e2 = "m".toList) →
        (runRL ⟨1, 60⟩ "a".toList "m".toList (fun _ _ => [])
          ((0 : ℚ) :: [] ++ [1])).2 u2 e2 = []) ∧
      (∀ v tv, ¬ v = "a".toList →
        (rateLimitStep ⟨1, 60⟩
          (runRL ⟨1, 60⟩ "a".toList "m".toList (fun _ _ => [])
            ((0 : ℚ) :: [] ++ [1])).2 v "m".toList tv).1.status = 200)) :=
  rate_limit_sliding_window_spec ⟨1, 60⟩ "a".toList "m".toList 0 1 [] rfl
    (by intro t ht; simp at ht; subst ht; norm_num)

/-- A two-request run against a limit-1 configuration: the first request is
admitted, the second (with the first timestamp unexpired) is rejected with
retry_after computed by integer truncation of the remaining window. -/
theorem runRL_two_requests (config : RLConfig) (u e : Str) (t0 t1 : ℚ)
    (hlimit : config.limit = 1)
    (h0 : ¬ t0 < t1 - config.window_seconds) :
    (runRL config u e (fun _ _ => []) [t0, t1]).1.map
        (fun r => (r.status, r.retry_after)) =
      [(200, none), (429, some (pyInt (t0 + config.window_seconds - t1)))] := by
  have hstep0 := rateLimitStep_allowed config (fun _ _ => []) u e t0
    (by simp [pruneBucket, hlimit])
  rw [show ([t0, t1] : List ℚ) = t0 :: [t1] from rfl, runRL_cons, hstep0]
  dsimp only
  have happ : ((fun u2 e2 => if u2 = u ∧ e2 = e then
      pruneBucket ((fun _ _ => ([] : List ℚ)) u e) (t0 - config.window_seconds) ++ [t0]
      else (fun _ _ => ([] : List ℚ)) u2 e2) : RLState) u e = [t0] := by
    simp [pruneBucket]
  have hstep1 := rateLimitStep_rejected config
    (fun u2 e2 => if u2 = u ∧ e2 = e then
      pruneBucket ((fun _ _ => ([] : List ℚ)) u e) (t0 - config.window_seconds) ++ [t0]
      else (fun _ _ => ([] : List ℚ)) u2 e2) u e t1
    (by rw [happ, pruneBucket_cons_of_kept t1 t0 _ [] h0]; simp [hlimit])
  rw [runRL_cons, hstep1, runRL_nil]
  dsimp only
  have hreset : rlReset config t1 (((fun u2 e2 => if u2 = u ∧ e2 = e then
      pruneBucket ((fun _ _ => ([] : List ℚ)) u e) (t0 - config.window_seconds) ++ [t0]
      else (fun _ _ => ([] : List ℚ)) u2 e2) : RLState) u e) =
      t0 + config.window_seconds := by
    rw [happ]
    exact rlReset_cons config t1 t0 [] h0
  rw [hreset]
  simp

/-- C3 counterexample: with limit 1 and window 60, requests at times 0 and
119/2 both lie within the window, yet the second request is rejected with
retry_after = 0 — the claimed strict positivity of retry_after fails in the
final second of the window. -/
theorem rate_limit_retry_after_zero :
    (runRL ⟨1, 60⟩ "u".toList "m".toList (fun _ _ => []) [0, 119/2]).1.map
        (fun r => (r.status, r.retry_after)) = [(200, none), (429, some 0)] := by
  rw [runRL_two_requests ⟨1, 60⟩ "u".toList "m".toList 0 (119/2) rfl
    (by show ¬ (0 : ℚ) < 119/2 - 60; norm_num)]
  have hp : pyInt ((0 : ℚ) + (⟨1, 60⟩ : RLConfig).window_seconds - 119/2) = 0 := by
    show pyInt ((0 : ℚ) + 60 - 119/2) = 0
    have hval : (0 : ℚ) + 60 - 119/2 = 1/2 := by norm_num
    rw [hval]
    unfold pyInt
    rw [if_neg (by norm_num)]
    rw [Int.floor_eq_iff]
    constructor <;> norm_num
  rw [hp]

/-- C10: a rejected request leaves its bucket exactly expiry-pruned — no
timestamp is appended — so a later check at any time ≥ now over that bucket
returns the same decision, remaining counter, reset time, and bucket as if
the rejected request had never happened. -/
theorem rejected_request_consumes_no_quota (config : RLConfig) (now : ℚ)
    (bucket : List ℚ)
    (hrej : (check_rate_limit config now bucket).1.is_allowed = false) :
    (check_rate_limit config now bucket).2 =
      pruneBucket bucket (now - config.window_seconds) ∧
    ∀ t2, now ≤ t2 →
      check_rate_limit config t2 (check_rate_limit config now bucket).2 =
        check_rate_limit config t2 bucket := by
  rcases check_rate_limit_cases config now bucket with ⟨_, heq⟩ | ⟨hc, heq⟩
  · rw [heq] at hrej
    simp at hrej
  · refine ⟨by rw [heq], ?_⟩
    intro t2 ht
    rw [heq]
    have hpp := pruneBucket_pruneBucket bucket (now - config.window_seconds)
      (t2 - config.window_seconds) (by linarith)
    simp [check_rate_limit, hpp]

/-- C10 witness: a rejected request at time 30 over bucket [0] with limit 1
leaves the bucket as [0], and a later check at time 40 is identical to one
that never saw the rejection. -/
theorem rejected_request_consumes_no_quota_witness :
    (check_rate_limit ⟨1, 60⟩ 30 [0]).2 = pruneBucket [0] ((30 : ℚ) - 60) ∧
    ∀ t2, (30 : ℚ) ≤ t2 →
      check_rate_limit ⟨1, 60⟩ t2 (check_rate_limit ⟨1, 60⟩ 30 [0]).2 =
        check_rate_limit ⟨1, 60⟩ t2 [0] :=
  rejected_request_consumes_no_quota ⟨1, 60⟩ 30 [0] (by
    have hd : ¬ ((0 : ℚ) < 30 - 60) := by norm_num
    have h : pruneBucket [0] ((30 : ℚ) - 60) = [0] := by
      simp [pruneBucket, List.dropWhile_cons, hd]
    rcases check_rate_limit_cases ⟨1, 60⟩ 30 [0] with ⟨hc, heq⟩ | ⟨hc, heq⟩
    · rw [h] at hc
      simp at hc
    · rw [heq])

/-- C9 counterexample: a final 300 status (not auto-followed as a redirect
and below the 4xx/5xx range checked by `raise_for_status`) with a valid JSON
body is not a 2xx response, yet `generate` raises no exception and returns
the extracted content — refuting the claim that every non-2xx HTTP result
raises. -/
theorem ollama_generate_non2xx_no_raise :
    ¬ (200 ≤ 300 ∧ 300 ≤ 299) ∧
    ollama_generate (.response 300 (some (.obj
        [("message".toList, .obj [("content".toList, .str "hi".toList)])]))) =
      .ok (.str "hi".toList) :=
  ⟨by omega, rfl⟩

/-- C9 (amended): a transport error or a 4xx/5xx HTTP status makes
`generate` raise an exception — it never silently returns an empty-string
content in place of that failure. -/
theorem ollama_generate_raises_on_transport_or_http_error (outcome : HttpOutcome)
    (h : outcome = .transportError ∨
      ∃ status body, outcome = .response status body ∧ 400 ≤ status ∧ status < 600) :
    ∃ e, ollama_generate outcome = .error e := by
  rcases h with h | ⟨status, body, h, h4, h6⟩
  · subst h
    exact ⟨_, rfl⟩
  · subst h
    refine ⟨"raise_for_status".toList, ?_⟩
    simp [ollama_generate, h4, h6]

/-- C9 witness: a connection failure raises. -/
theorem ollama_generate_raises_witness :
    ∃ e, ollama_generate .transportError = .error e :=
  ollama_generate_raises_on_transport_or_http_error .transportError (Or.inl rfl)

end NoteTaker
